import Mathlib

/-!
Shallow embedding of the alert-bridge core: the alert lifecycle entity
(internal/domain/entity/alert.go, ack_event.go), the alert processing engine
(internal/usecase/alert/process_alert.go) and the acknowledgment sync engine
(internal/usecase/ack/sync_ack.go).  External collaborators (alert store,
ack-event store, silence store, notifiers, syncers) are modelled as explicit
data: the stores as lists threaded through each operation, the collaborators'
behaviour as function-valued records, mirroring the Go interfaces.
Go `map[string]string` values are modelled as association lists with
last-write-wins update; time stamps are natural numbers; `uuid.New()` results
are passed in as explicit parameters.
-/

namespace AlertBridge

/-- Alert lifecycle state, from entity/alert.go (`StateActive`, `StateAcked`,
`StateResolved`). -/
inductive AlertState where
  | active
  | acknowledged
  | resolved
deriving DecidableEq, Repr

/-- Association-list read with the Go map convention: a missing key reads as
the zero value `""`. -/
def mapGet (m : List (String × String)) (k : String) : String :=
  match m.find? (fun p => p.1 == k) with
  | some p => p.2
  | none => ""

/-- Association-list write, `m[k] = v` in Go: replaces the binding if the key
is present, otherwise appends it. -/
def mapSet : List (String × String) → String → String → List (String × String)
  | [], k, v => [(k, v)]
  | (k', v') :: rest, k, v =>
      if k' == k then (k, v) :: rest else (k', v') :: mapSet rest k v

/-- Alert entity from internal/domain/entity/alert.go. -/
structure Alert where
  id : String := ""
  fingerprint : String := ""
  name : String := ""
  inst : String := ""
  target : String := ""
  summary : String := ""
  description : String := ""
  severity : String := ""
  state : AlertState := .active
  labels : List (String × String) := []
  annotations : List (String × String) := []
  externalReferences : List (String × String) := []
  firedAt : Nat := 0
  ackedAt : Option Nat := none
  ackedBy : String := ""
  resolvedAt : Option Nat := none
  resolvedBy : String := ""
  createdAt : Nat := 0
  updatedAt : Nat := 0
deriving DecidableEq, Repr

/-- Error results of `Alert.Acknowledge`, the sentinel errors
`ErrAlertAlreadyResolved` / `ErrAlertAlreadyAcked` of entity/errors.go. -/
inductive AckError where
  | alreadyResolved
  | alreadyAcked
deriving DecidableEq, Repr

/-- Alert.Acknowledge from entity/alert.go: fails on resolved, then on
already-acknowledged, otherwise transitions to acknowledged. -/
def Alert.Acknowledge (a : Alert) (who : String) (t : Nat) : Except AckError Alert :=
  if a.state = .resolved then .error .alreadyResolved
  else if a.state = .acknowledged then .error .alreadyAcked
  else .ok { a with state := .acknowledged, ackedAt := some t, ackedBy := who, updatedAt := t }

/-- Alert.Resolve from entity/alert.go. -/
def Alert.Resolve (a : Alert) (t : Nat) : Alert :=
  { a with state := .resolved, resolvedAt := some t, updatedAt := t }

/-- Alert.IsFiring from entity/alert.go: not resolved (active or acknowledged). -/
def Alert.IsFiring (a : Alert) : Bool :=
  a.state != .resolved

/-- Alert.SetExternalReference from entity/alert.go (the `time.Now()` it stores
into `UpdatedAt` is the ambient time parameter `t`). -/
def Alert.SetExternalReference (a : Alert) (sys ref : String) (t : Nat) : Alert :=
  { a with externalReferences := mapSet a.externalReferences sys ref, updatedAt := t }

/-- Alert.GetExternalReference from entity/alert.go. -/
def Alert.GetExternalReference (a : Alert) (sys : String) : String :=
  mapGet a.externalReferences sys

/-- Alert.HasExternalReference from entity/alert.go: the reference is non-empty. -/
def Alert.HasExternalReference (a : Alert) (sys : String) : Bool :=
  a.GetExternalReference sys != ""

/-- Alert.AddLabel from entity/alert.go. -/
def Alert.AddLabel (a : Alert) (k v : String) : Alert :=
  { a with labels := mapSet a.labels k v }

/-- NewAlert from entity/alert.go: fresh id (passed in for the `uuid.New()`
call), state active, empty maps, and all time stamps set to `now`. -/
def NewAlert (newId fingerprint name inst target summary severity : String)
    (now : Nat) : Alert :=
  { id := newId, fingerprint := fingerprint, name := name, inst := inst,
    target := target, summary := summary, severity := severity,
    state := .active, labels := [], annotations := [], externalReferences := [],
    firedAt := now, createdAt := now, updatedAt := now }

/-- AckEvent entity from internal/domain/entity/ack_event.go. -/
structure AckEvent where
  id : String := ""
  alertID : String := ""
  source : String := ""
  userID : String := ""
  userEmail : String := ""
  userName : String := ""
  note : String := ""
  duration : Option Nat := none
  createdAt : Nat := 0
deriving DecidableEq, Repr

/-- NewAckEvent from entity/ack_event.go. -/
def NewAckEvent (newId alertID source userID userEmail userName : String)
    (now : Nat) : AckEvent :=
  { id := newId, alertID := alertID, source := source, userID := userID,
    userEmail := userEmail, userName := userName, createdAt := now }

/-! ### External collaborators

The repository interfaces of internal/domain/repository are external
collaborators; their state is a plain list threaded through each operation and
their failure behaviour is chosen by an environment record, so that both the
healthy and the failing store can be instantiated. -/

/-- Failure behaviour of the AlertRepository collaborator: `none` means the
operation succeeds, `some e` means it returns error `e`. -/
structure RepoEnv where
  findByFingerprintErr : Option String := none
  findByIDErr : Option String := none
  saveErr : Option String := none
  updateErr : Alert → Option String := fun _ => none

/-- AlertRepository.FindByFingerprint: all stored alerts with the fingerprint. -/
def findByFingerprint (env : RepoEnv) (store : List Alert) (fp : String) :
    Except String (List Alert) :=
  match env.findByFingerprintErr with
  | some e => .error e
  | none => .ok (store.filter (fun a => a.fingerprint == fp))

/-- AlertRepository.FindByID: the stored alert with the id, if any. -/
def findByID (env : RepoEnv) (store : List Alert) (i : String) :
    Except String (Option Alert) :=
  match env.findByIDErr with
  | some e => .error e
  | none => .ok (store.find? (fun a => a.id == i))

/-- AlertRepository.Save: appends the alert to the store. -/
def saveAlert (env : RepoEnv) (store : List Alert) (a : Alert) :
    Except String (List Alert) :=
  match env.saveErr with
  | some e => .error e
  | none => .ok (store ++ [a])

/-- Replacement of the stored alert with the same id, the effect of
AlertRepository.Update on the store. -/
def updateStore (store : List Alert) (a : Alert) : List Alert :=
  store.map (fun b => if b.id == a.id then a else b)

/-- AlertRepository.Update: replaces the stored alert with the same id. -/
def updateAlert (env : RepoEnv) (store : List Alert) (a : Alert) :
    Except String (List Alert) :=
  match env.updateErr a with
  | some e => .error e
  | none => .ok (updateStore store a)

/-- Notifier collaborator (usecase/alert/interfaces.go): `notifyResult` is the
channel's response to Notify (message id or error), `updateResult` the response
to UpdateMessage (`none` on success). -/
structure Notifier where
  name : String
  notifyResult : Alert → Except String String
  updateResult : String → Alert → Option String

/-- SilenceMark entity, consumed read-only through the silence store. -/
structure SilenceMark where
  id : String := ""
  endAt : Nat := 0
deriving DecidableEq, Repr

/-! ### Alert Processing Engine (usecase/alert/process_alert.go) -/

/-- ProcessAlertInput DTO: the fields read by ProcessAlertUseCase.Execute. -/
structure ProcessAlertInput where
  fingerprint : String := ""
  status : String := ""
  name : String := ""
  inst : String := ""
  target : String := ""
  summary : String := ""
  severity : String := ""
  description : String := ""
  firedAt : Nat := 0
  labels : List (String × String) := []
  annotations : List (String × String) := []
deriving DecidableEq, Repr

/-- NotificationError DTO: notifier name with the error it returned. -/
structure NotificationError where
  notifierName : String
  error : String
deriving DecidableEq, Repr

/-- ProcessAlertOutput DTO. -/
structure ProcessAlertOutput where
  alertID : String := ""
  isNew : Bool := false
  isSilenced : Bool := false
  notificationsSent : List String := []
  notificationsFailed : List NotificationError := []
deriving DecidableEq, Repr

/-- Result of one run of ProcessAlertUseCase.Execute: the store after the run,
the output DTO, and traces of the Notify and UpdateMessage calls made (the
notifier names, in call order). -/
structure ProcResult where
  store : List Alert
  output : ProcessAlertOutput
  notifyCalls : List String
  updateCalls : List String
deriving DecidableEq, Repr

/-- State of the notifier fan-out loop of sendNotifications: the store, the
alert object being mutated in place, and the accumulating output lists. -/
structure SendResult where
  store : List Alert
  alert : Alert
  sent : List String
  failed : List NotificationError
  calls : List String
deriving DecidableEq, Repr

/-- Environment of ProcessAlertUseCase: the repository behaviour, the silence
store behaviour (FindMatchingAlert returns a slice and an error, as in Go), and
the configured notifiers. -/
structure ProcEnv where
  repo : RepoEnv
  silenceFind : Alert → List SilenceMark × Option String
  notifiers : List Notifier

/-- storeMessageID from process_alert.go: sets the external reference on the
alert and updates the store; an Update error is logged and swallowed. -/
def storeMessageID (env : RepoEnv) (store : List Alert) (a : Alert)
    (nname mid : String) (t : Nat) : List Alert × Alert :=
  let a' := Alert.SetExternalReference a nname mid t
  match updateAlert env store a' with
  | .ok s' => (s', a')
  | .error _ => (store, a')

/-- sendNotifications from process_alert.go: every notifier is tried in order;
a Notify error is appended to NotificationsFailed and the loop continues; on
success the message id is stored via storeMessageID and the name appended to
NotificationsSent. -/
def sendNotifications (env : RepoEnv) (ns : List Notifier) (store : List Alert)
    (a : Alert) (t : Nat) : SendResult :=
  match ns with
  | [] => ⟨store, a, [], [], []⟩
  | n :: rest =>
      match n.notifyResult a with
      | .error e =>
          let r := sendNotifications env rest store a t
          ⟨r.store, r.alert, r.sent, ⟨n.name, e⟩ :: r.failed, n.name :: r.calls⟩
      | .ok mid =>
          let p := storeMessageID env store a n.name mid t
          let r := sendNotifications env rest p.1 p.2 t
          ⟨r.store, r.alert, n.name :: r.sent, r.failed, n.name :: r.calls⟩

/-- updateNotifications from process_alert.go: notifiers without a stored
message id are skipped; UpdateMessage failures are collected and do not abort. -/
def updateNotifications (ns : List Notifier) (a : Alert) :
    List String × List NotificationError × List String :=
  match ns with
  | [] => ([], [], [])
  | n :: rest =>
      let mid := Alert.GetExternalReference a n.name
      if mid == "" then updateNotifications rest a
      else
        let r := updateNotifications rest a
        match n.updateResult mid a with
        | some e => (r.1, ⟨n.name, e⟩ :: r.2.1, n.name :: r.2.2)
        | none => (n.name :: r.1, r.2.1, n.name :: r.2.2)

/-- findFiringAlert from process_alert.go: the first non-resolved alert. -/
def findFiringAlert (alerts : List Alert) : Option Alert :=
  alerts.find? (fun a => a.IsFiring)

/-- Construction of the new alert in steps 4 of Execute: NewAlert, then
description and firedAt from the input, then the label and annotation copies. -/
def mkInputAlert (newId : String) (now : Nat) (input : ProcessAlertInput) : Alert :=
  let a := NewAlert newId input.fingerprint input.name input.inst input.target
    input.summary input.severity now
  let a := { a with description := input.description, firedAt := input.firedAt }
  let a := input.labels.foldl (fun b p => Alert.AddLabel b p.1 p.2) a
  input.annotations.foldl
    (fun b p => { b with annotations := mapSet b.annotations p.1 p.2 }) a

/-- ProcessAlertUseCase.Execute from process_alert.go: fingerprint lookup, the
resolved path (resolve the firing alert and push message updates), the firing
path (dedup against a non-resolved alert, else create, silence-check, save and
notify). Store errors are wrapped with the same prefixes as the Go `fmt.Errorf`
calls. -/
def ProcessAlertExecute (env : ProcEnv) (newId : String) (now : Nat)
    (store : List Alert) (input : ProcessAlertInput) : Except String ProcResult :=
  match findByFingerprint env.repo store input.fingerprint with
  | .error e => .error ("finding alert by fingerprint: " ++ e)
  | .ok existing =>
    if input.status == "resolved" then
      match findFiringAlert existing with
      | none => .ok ⟨store, {}, [], []⟩
      | some a =>
        let a := Alert.Resolve a now
        match updateAlert env.repo store a with
        | .error e => .error ("updating resolved alert: " ++ e)
        | .ok store' =>
          let r := updateNotifications env.notifiers a
          let out : ProcessAlertOutput :=
            { alertID := a.id, isNew := false,
              notificationsSent := r.1, notificationsFailed := r.2.1 }
          .ok ⟨store', out, [], r.2.2⟩
    else
      match findFiringAlert existing with
      | some a => .ok ⟨store, { alertID := a.id, isNew := false }, [], []⟩
      | none =>
        let a0 := mkInputAlert newId now input
        let sil := env.silenceFind a0
        if sil.1.length > 0 then
          match saveAlert env.repo store a0 with
          | .error e => .error ("saving silenced alert: " ++ e)
          | .ok store' =>
            let out : ProcessAlertOutput :=
              { alertID := a0.id, isNew := true, isSilenced := true }
            .ok ⟨store', out, [], []⟩
        else
          match saveAlert env.repo store a0 with
          | .error e => .error ("saving alert: " ++ e)
          | .ok store' =>
            let r := sendNotifications env.repo env.notifiers store' a0 now
            let out : ProcessAlertOutput :=
              { alertID := a0.id, isNew := true,
                notificationsSent := r.sent, notificationsFailed := r.failed }
            .ok ⟨r.store, out, r.calls, []⟩

/-! ### Acknowledgment Sync Engine (usecase/ack/sync_ack.go) -/

/-- AckSyncer collaborator: name, SupportsAck, and the channel's response to
Acknowledge (`none` on success, `some e` on error). -/
structure AckSyncer where
  name : String
  supportsAck : Bool
  ackResult : Alert → AckEvent → Option String

/-- SyncAckInput from sync_ack.go. -/
structure SyncAckInput where
  alertID : String := ""
  source : String := ""
  userID : String := ""
  userEmail : String := ""
  userName : String := ""
  note : String := ""
  duration : Option Nat := none
deriving DecidableEq, Repr

/-- SyncError from sync_ack.go: the system name with the error it returned. -/
structure SyncError where
  system : String
  error : String
deriving DecidableEq, Repr

/-- SyncAckOutput from sync_ack.go. -/
structure SyncAckOutput where
  alert : Alert
  ackEvent : AckEvent
  syncedTo : List String := []
  syncErrors : List SyncError := []
deriving DecidableEq, Repr

/-- Errors returned by SyncAckUseCase.Execute: wrapped infrastructure errors,
the ErrAlertNotFound sentinel, and the wrapped state-transition error of the
branch that rejects errors other than already-acked / already-resolved. -/
inductive SyncAckErr where
  | infra (msg : String)
  | alertNotFound
  | ackFailed (e : AckError)
deriving DecidableEq, Repr

/-- Result of one run of SyncAckUseCase.Execute: both stores after the run, the
output, and the trace of syncer.Acknowledge calls (syncer names in order). -/
structure SyncAckResult where
  alertStore : List Alert
  ackStore : List AckEvent
  output : SyncAckOutput
  syncCalls : List String
deriving DecidableEq, Repr

/-- Accumulator of syncToExternalSystems: synced names, sync errors,
Acknowledge-call trace. -/
structure FanOutResult where
  synced : List String
  errs : List SyncError
  calls : List String
deriving DecidableEq, Repr

/-- Event construction of steps 2 of SyncAckUseCase.Execute: NewAckEvent, then
WithNote when the note is non-empty and WithDuration when one is given. -/
def mkAckEvent (newEventId : String) (now : Nat) (input : SyncAckInput) : AckEvent :=
  let ev := NewAckEvent newEventId input.alertID input.source input.userID
    input.userEmail input.userName now
  let ev := if input.note != "" then { ev with note := input.note } else ev
  match input.duration with
  | some d => { ev with duration := some d }
  | none => ev

/-- shouldSync from sync_ack.go. -/
def shouldSync (a : Alert) (syncerName : String) : Bool :=
  Alert.HasExternalReference a syncerName

/-- syncToExternalSystems from sync_ack.go: skip syncers that do not support
ack, skip the syncer named like the ack's source, skip syncers without an
external reference on the alert, otherwise call Acknowledge and record the
name in SyncedTo or the failure in SyncErrors. -/
def syncToExternalSystems (syncers : List AckSyncer) (a : Alert) (ev : AckEvent)
    (source : String) : FanOutResult :=
  match syncers with
  | [] => ⟨[], [], []⟩
  | s :: rest =>
      if !s.supportsAck then syncToExternalSystems rest a ev source
      else if s.name == source then syncToExternalSystems rest a ev source
      else if !shouldSync a s.name then syncToExternalSystems rest a ev source
      else
        let r := syncToExternalSystems rest a ev source
        match s.ackResult a ev with
        | some e => ⟨r.synced, ⟨s.name, e⟩ :: r.errs, s.name :: r.calls⟩
        | none => ⟨s.name :: r.synced, r.errs, s.name :: r.calls⟩

/-- Step 4 of SyncAckUseCase.Execute: attempt Alert.Acknowledge; both the
already-acked and the already-resolved errors are tolerated (the code continues
with the unchanged alert); any other transition error aborts. -/
def ackTransition (a : Alert) (who : String) (now : Nat) : Except SyncAckErr Alert :=
  match Alert.Acknowledge a who now with
  | .ok a2 => .ok a2
  | .error e =>
      if e != .alreadyAcked && e != .alreadyResolved then .error (.ackFailed e)
      else .ok a

/-- SyncAckUseCase.Execute from sync_ack.go: load the alert by id (not-found is
terminal), save the audit AckEvent, attempt Alert.Acknowledge where both
already-acked and already-resolved are tolerated and any other transition error
aborts, persist the alert, then fan out to the other systems. `ackSaveErr` is
the AckEventRepository.Save failure behaviour. -/
def SyncAckExecute (env : RepoEnv) (ackSaveErr : Option String)
    (syncers : List AckSyncer) (newEventId : String) (now : Nat)
    (alertStore : List Alert) (ackStore : List AckEvent) (input : SyncAckInput) :
    Except SyncAckErr SyncAckResult :=
  match findByID env alertStore input.alertID with
  | .error e => .error (.infra ("finding alert: " ++ e))
  | .ok none => .error .alertNotFound
  | .ok (some alert) =>
    match ackSaveErr with
    | some e => .error (.infra ("saving ack event: " ++ e))
    | none =>
      match ackTransition alert input.userEmail now with
      | .error err => .error err
      | .ok a2 =>
        match updateAlert env alertStore a2 with
        | .error e => .error (.infra ("updating alert: " ++ e))
        | .ok alertStore2 =>
          let ev := mkAckEvent newEventId now input
          let r := syncToExternalSystems syncers a2 ev input.source
          let out : SyncAckOutput :=
            { alert := a2, ackEvent := ev, syncedTo := r.synced,
              syncErrors := r.errs }
          .ok ⟨alertStore2, ackStore ++ [ev], out, r.calls⟩

/-! ### PagerDuty subscriber fan-out handle extraction
(sendPagerDutyNotification in process_alert.go, subscriber-aware variant) -/

/-- Classification of one entry of the NotifySubscribersSequentially result
map: `len(result) > 6 && result[:6] == "error:"` marks a failure. -/
def isErrorResult (r : String) : Bool :=
  r.length > 6 && r.take 6 == "error:"

/-- Extraction of the representative dedup key in sendPagerDutyNotification:
the Go loop ranges over the result map — `entries` is one iteration sequence of
that map — skips error entries, and keeps the first non-empty success token. -/
def firstDedupKey (entries : List (String × String)) : String :=
  entries.foldl
    (fun acc p => if isErrorResult p.2 then acc
      else if acc == "" then p.2 else acc) ""

/-- Tail of sendPagerDutyNotification on the subscriber path: the first dedup
key is returned when non-empty, otherwise the generic PagerDuty notifier
fallback result. -/
def pagerDutyRepresentativeHandle (entries : List (String × String))
    (fallback : Except String String) : Except String String :=
  let k := firstDedupKey entries
  if k != "" then .ok k else fallback

/-- Extraction of the run result from a successful SyncAckExecute, used to
state concrete instantiations. -/
def syncResultOf (x : Except SyncAckErr SyncAckResult) : SyncAckResult :=
  match x with
  | .ok r => r
  | .error _ => ⟨[], [], ⟨{}, {}, [], []⟩, []⟩

/-- Extraction of the run result from a successful ProcessAlertExecute, used to
state concrete instantiations. -/
def procResultOf (x : Except String ProcResult) : ProcResult :=
  match x with
  | .ok r => r
  | .error _ => ⟨[], {}, [], []⟩

/-! ### Helper lemmas -/

/-- A name appears in any of the three fan-out lists only if it differs from
the ack's source and the alert carries an external reference for it. -/
theorem fanout_mem_inv (syncers : List AckSyncer) (a : Alert) (ev : AckEvent)
    (source nm : String)
    (h : nm ∈ (syncToExternalSystems syncers a ev source).synced ∨
         nm ∈ (syncToExternalSystems syncers a ev source).errs.map SyncError.system ∨
         nm ∈ (syncToExternalSystems syncers a ev source).calls) :
    nm ≠ source ∧ Alert.HasExternalReference a nm = true := by
  induction syncers with
  | nil => simp [syncToExternalSystems] at h
  | cons s rest ih =>
      by_cases hsup : s.supportsAck = true
      · by_cases hname : (s.name == source) = true
        · simp only [syncToExternalSystems, hsup, hname, Bool.not_true,
            Bool.false_eq_true, if_false, if_true] at h
          exact ih h
        · by_cases hss : shouldSync a s.name = true
          · simp only [syncToExternalSystems, hsup, hname, hss, Bool.not_true,
              Bool.false_eq_true, if_false, if_true] at h
            cases hres : s.ackResult a ev with
            | some e =>
                rw [hres] at h
                simp only [List.map_cons, List.mem_cons] at h
                rcases h with h | (h | h) | h
                · exact ih (Or.inl h)
                · subst h
                  exact ⟨by simpa using hname, by simpa [shouldSync] using hss⟩
                · exact ih (Or.inr (Or.inl h))
                · rcases h with h | h
                  · subst h
                    exact ⟨by simpa using hname, by simpa [shouldSync] using hss⟩
                  · exact ih (Or.inr (Or.inr h))
            | none =>
                rw [hres] at h
                simp only [List.mem_cons] at h
                rcases h with (h | h) | h | h
                · subst h
                  exact ⟨by simpa using hname, by simpa [shouldSync] using hss⟩
                · exact ih (Or.inl h)
                · exact ih (Or.inr (Or.inl h))
                · rcases h with h | h
                  · subst h
                    exact ⟨by simpa using hname, by simpa [shouldSync] using hss⟩
                  · exact ih (Or.inr (Or.inr h))
          · simp only [syncToExternalSystems, hsup, hname, hss, Bool.not_true,
              Bool.not_false, Bool.false_eq_true, if_false, if_true,
              Bool.not_eq_true] at h
            exact ih (by simpa using h)
      · simp only [syncToExternalSystems, Bool.not_eq_true] at h
        rw [Bool.not_eq_true' .. |>.mpr (by simpa using hsup)] at h
        simp only [if_true] at h
        exact ih h

/-- Acknowledge leaves the external-reference map unchanged on success. -/
theorem acknowledge_ok_refs (a a2 : Alert) (who : String) (t : Nat)
    (h : Alert.Acknowledge a who t = .ok a2) :
    a2.externalReferences = a.externalReferences := by
  unfold Alert.Acknowledge at h
  split at h
  · cases h
  · split at h
    · cases h
    · cases h
      rfl

/-- A tolerated or successful acknowledgment transition leaves the
external-reference map unchanged. -/
theorem ackTransition_ok_refs (a a2 : Alert) (who : String) (t : Nat)
    (h : ackTransition a who t = .ok a2) :
    a2.externalReferences = a.externalReferences := by
  unfold ackTransition at h
  split at h
  · cases h
    exact acknowledge_ok_refs _ _ _ _ (by assumption)
  · split at h
    · cases h
    · cases h
      rfl

/-- A successful SyncAckExecute run's output lists and call trace are exactly
those of the fan-out over some alert whose external references are the loaded
alert's. -/
theorem syncAckExecute_ok_inv (env : RepoEnv) (ackSaveErr : Option String)
    (syncers : List AckSyncer) (newEventId : String) (now : Nat)
    (aStore : List Alert) (eStore : List AckEvent) (input : SyncAckInput)
    (r : SyncAckResult)
    (h : SyncAckExecute env ackSaveErr syncers newEventId now aStore eStore input
      = .ok r) :
    ∃ alert a2 ev, aStore.find? (fun a => a.id == input.alertID) = some alert ∧
      a2.externalReferences = alert.externalReferences ∧
      r.output.syncedTo = (syncToExternalSystems syncers a2 ev input.source).synced ∧
      r.output.syncErrors = (syncToExternalSystems syncers a2 ev input.source).errs ∧
      r.syncCalls = (syncToExternalSystems syncers a2 ev input.source).calls := by
  unfold SyncAckExecute findByID at h
  split at h
  · cases h
  · cases h
  · rename_i alert heq
    have hfind : aStore.find? (fun a => a.id == input.alertID) = some alert := by
      cases hfe : env.findByIDErr with
      | some e => rw [hfe] at heq; cases heq
      | none =>
          rw [hfe] at heq
          exact Except.ok.inj heq
    split at h
    · cases h
    · split at h
      · cases h
      · rename_i a2 hack
        split at h
        · cases h
        · cases h
          exact ⟨alert, a2, _, hfind, ackTransition_ok_refs _ _ _ _ hack,
            rfl, rfl, rfl⟩

/-- C3: for every SyncAckInput with source X and every configuration of
syncers, the SyncedTo list returned by a successful SyncAckUseCase.Execute
never contains X — the syncer whose name equals the ack's source is never
invoked during the fan-out. -/
theorem c3_anti_echo (env : RepoEnv) (ackSaveErr : Option String)
    (syncers : List AckSyncer) (newEventId : String) (now : Nat)
    (aStore : List Alert) (eStore : List AckEvent) (input : SyncAckInput)
    (r : SyncAckResult)
    (h : SyncAckExecute env ackSaveErr syncers newEventId now aStore eStore input
      = .ok r) :
    input.source ∉ r.output.syncedTo ∧ input.source ∉ r.syncCalls := by
  obtain ⟨alert, a2, ev, _, _, hsy, _, hcalls⟩ :=
    syncAckExecute_ok_inv env ackSaveErr syncers newEventId now aStore eStore
      input r h
  constructor
  · intro hmem
    rw [hsy] at hmem
    exact (fanout_mem_inv syncers a2 ev input.source input.source
      (Or.inl hmem)).1 rfl
  · intro hmem
    rw [hcalls] at hmem
    exact (fanout_mem_inv syncers a2 ev input.source input.source
      (Or.inr (Or.inr hmem))).1 rfl

/-- C5: for every configured syncer name with no external reference on the
alert loaded for the ack (key absent or empty), that name is never the target
of an Acknowledge call during SyncAckUseCase.Execute and appears in neither
SyncedTo nor SyncErrors. -/
theorem c5_reference_gating (env : RepoEnv) (ackSaveErr : Option String)
    (syncers : List AckSyncer) (newEventId : String) (now : Nat)
    (aStore : List Alert) (eStore : List AckEvent) (input : SyncAckInput)
    (r : SyncAckResult) (nm : String)
    (href : ∀ a ∈ aStore, a.id = input.alertID →
      Alert.HasExternalReference a nm = false)
    (h : SyncAckExecute env ackSaveErr syncers newEventId now aStore eStore input
      = .ok r) :
    nm ∉ r.syncCalls ∧ nm ∉ r.output.syncedTo ∧
      nm ∉ r.output.syncErrors.map SyncError.system := by
  obtain ⟨alert, a2, ev, hfind, hrefs, hsy, herr, hcalls⟩ :=
    syncAckExecute_ok_inv env ackSaveErr syncers newEventId now aStore eStore
      input r h
  have hmemfind := List.mem_of_find?_eq_some hfind
  have hid : alert.id = input.alertID := by
    have := List.find?_some hfind
    simpa using this
  have hno : Alert.HasExternalReference a2 nm = false := by
    have hbase := href alert hmemfind hid
    unfold Alert.HasExternalReference Alert.GetExternalReference at hbase ⊢
    rw [hrefs]
    exact hbase
  refine ⟨?_, ?_, ?_⟩
  · intro hmem
    rw [hcalls] at hmem
    have := (fanout_mem_inv syncers a2 ev input.source nm
      (Or.inr (Or.inr hmem))).2
    rw [hno] at this
    cases this
  · intro hmem
    rw [hsy] at hmem
    have := (fanout_mem_inv syncers a2 ev input.source nm (Or.inl hmem)).2
    rw [hno] at this
    cases this
  · intro hmem
    rw [herr] at hmem
    have := (fanout_mem_inv syncers a2 ev input.source nm
      (Or.inr (Or.inl hmem))).2
    rw [hno] at this
    cases this

/-- Sample resolved alert with references on both channels. -/
def sampleResolvedAlert : Alert :=
  { id := "a1", fingerprint := "fp-1", state := .resolved,
    externalReferences := [("slack", "m1"), ("pagerduty", "p1")] }

/-- Sample active alert with references on both channels. -/
def sampleActiveAlert : Alert :=
  { id := "a3", fingerprint := "fp-3", state := .active,
    externalReferences := [("slack", "m1"), ("pagerduty", "p1")] }

/-- Sample active alert with a slack reference only. -/
def sampleAlertNoPd : Alert :=
  { id := "a2", fingerprint := "fp-2", state := .active,
    externalReferences := [("slack", "m1")] }

/-- Slack syncer that supports ack and always succeeds. -/
def slackSyncer : AckSyncer := ⟨"slack", true, fun _ _ => none⟩

/-- PagerDuty syncer that supports ack and always succeeds. -/
def pdSyncer : AckSyncer := ⟨"pagerduty", true, fun _ _ => none⟩

/-- Sample acknowledgment originating from PagerDuty on alert a1. -/
def sampleAckInput : SyncAckInput :=
  { alertID := "a1", source := "pagerduty", userID := "U1",
    userEmail := "user@x", userName := "User" }

/-- Witness for C3: a concrete PagerDuty-sourced ack on an alert with both
references never lists pagerduty in SyncedTo or the call trace. -/
theorem c3_anti_echo_witness :
    "pagerduty" ∉ (syncResultOf (SyncAckExecute {} none [slackSyncer, pdSyncer]
      "ev3" 12 [sampleActiveAlert] []
      { alertID := "a3", source := "pagerduty" })).output.syncedTo ∧
    "pagerduty" ∉ (syncResultOf (SyncAckExecute {} none [slackSyncer, pdSyncer]
      "ev3" 12 [sampleActiveAlert] []
      { alertID := "a3", source := "pagerduty" })).syncCalls :=
  c3_anti_echo {} none [slackSyncer, pdSyncer] "ev3" 12 [sampleActiveAlert] []
    { alertID := "a3", source := "pagerduty" } _ rfl

/-- Witness for C5: a concrete api-sourced ack on an alert with only a slack
reference never calls or lists the pagerduty syncer. -/
theorem c5_reference_gating_witness :
    "pagerduty" ∉ (syncResultOf (SyncAckExecute {} none [slackSyncer, pdSyncer]
      "ev4" 12 [sampleAlertNoPd] []
      { alertID := "a2", source := "api" })).syncCalls ∧
    "pagerduty" ∉ (syncResultOf (SyncAckExecute {} none [slackSyncer, pdSyncer]
      "ev4" 12 [sampleAlertNoPd] []
      { alertID := "a2", source := "api" })).output.syncedTo ∧
    "pagerduty" ∉ ((syncResultOf (SyncAckExecute {} none [slackSyncer, pdSyncer]
      "ev4" 12 [sampleAlertNoPd] []
      { alertID := "a2", source := "api" })).output.syncErrors.map SyncError.system) :=
  c5_reference_gating {} none [slackSyncer, pdSyncer] "ev4" 12 [sampleAlertNoPd]
    [] { alertID := "a2", source := "api" } _ "pagerduty" (by decide) rfl

/-- Run of SyncAckExecute on a resolved alert with healthy stores: the
already-resolved transition error is tolerated, the unchanged alert is
persisted, the audit event is appended, the fan-out runs, and the call
succeeds. -/
theorem syncAckExecute_resolved (env : RepoEnv) (syncers : List AckSyncer)
    (newEventId : String) (now : Nat) (aStore : List Alert)
    (eStore : List AckEvent) (input : SyncAckInput) (alert : Alert)
    (hfe : env.findByIDErr = none)
    (hupd : ∀ a, env.updateErr a = none)
    (hfind : aStore.find? (fun a => a.id == input.alertID) = some alert)
    (hres : alert.state = .resolved) :
    SyncAckExecute env none syncers newEventId now aStore eStore input =
      .ok ⟨updateStore aStore alert,
        eStore ++ [mkAckEvent newEventId now input],
        { alert := alert, ackEvent := mkAckEvent newEventId now input,
          syncedTo := (syncToExternalSystems syncers alert
            (mkAckEvent newEventId now input) input.source).synced,
          syncErrors := (syncToExternalSystems syncers alert
            (mkAckEvent newEventId now input) input.source).errs },
        (syncToExternalSystems syncers alert
          (mkAckEvent newEventId now input) input.source).calls⟩ := by
  have hack : Alert.Acknowledge alert input.userEmail now =
      .error .alreadyResolved := by
    unfold Alert.Acknowledge
    rw [if_pos hres]
  have htr : ackTransition alert input.userEmail now = .ok alert := by
    unfold ackTransition
    rw [hack]
    rfl
  unfold SyncAckExecute findByID updateAlert
  rw [hfe, hfind]
  dsimp only
  rw [htr]
  dsimp only
  rw [hupd]

/-- C2 counterexample: acknowledging a concrete resolved alert does not fail —
SyncAckUseCase.Execute returns success, persists the (unchanged) alert, and
performs the sync fan-out (the slack syncer is called and listed in SyncedTo),
contradicting the claimed hard stop. -/
theorem c2_counterexample :
    SyncAckExecute {} none [slackSyncer, pdSyncer] "ev1" 10
      [sampleResolvedAlert] [] sampleAckInput =
      .ok ⟨[sampleResolvedAlert], [mkAckEvent "ev1" 10 sampleAckInput],
        { alert := sampleResolvedAlert,
          ackEvent := mkAckEvent "ev1" 10 sampleAckInput,
          syncedTo := ["slack"], syncErrors := [] }, ["slack"]⟩ := by
  rfl

/-- C2 amended: for every alert whose state is resolved, Alert.Acknowledge
does return ErrAlertAlreadyResolved, but SyncAckUseCase.Execute tolerates that
error exactly like the already-acked soft case: with healthy stores it persists
the unchanged alert, performs the sync fan-out, and returns success — the error
does not abort the operation or surface to the caller. -/
theorem c2_resolved_is_tolerated (env : RepoEnv) (syncers : List AckSyncer)
    (newEventId : String) (now : Nat) (aStore : List Alert)
    (eStore : List AckEvent) (input : SyncAckInput) (alert : Alert)
    (hfe : env.findByIDErr = none)
    (hupd : ∀ a, env.updateErr a = none)
    (hfind : aStore.find? (fun a => a.id == input.alertID) = some alert)
    (hres : alert.state = .resolved) :
    Alert.Acknowledge alert input.userEmail now = .error .alreadyResolved ∧
    SyncAckExecute env none syncers newEventId now aStore eStore input =
      .ok ⟨updateStore aStore alert,
        eStore ++ [mkAckEvent newEventId now input],
        { alert := alert, ackEvent := mkAckEvent newEventId now input,
          syncedTo := (syncToExternalSystems syncers alert
            (mkAckEvent newEventId now input) input.source).synced,
          syncErrors := (syncToExternalSystems syncers alert
            (mkAckEvent newEventId now input) input.source).errs },
        (syncToExternalSystems syncers alert
          (mkAckEvent newEventId now input) input.source).calls⟩ := by
  refine ⟨?_, syncAckExecute_resolved env syncers newEventId now aStore eStore
    input alert hfe hupd hfind hres⟩
  unfold Alert.Acknowledge
  rw [if_pos hres]

/-- Witness for the amended C2 on a concrete resolved alert. -/
theorem c2_resolved_is_tolerated_witness :
    sampleResolvedAlert.state = .resolved ∧
    (Alert.Acknowledge sampleResolvedAlert sampleAckInput.userEmail 10 =
      .error .alreadyResolved ∧
    SyncAckExecute {} none [slackSyncer, pdSyncer] "ev1" 10
      [sampleResolvedAlert] [] sampleAckInput =
      .ok ⟨updateStore [sampleResolvedAlert] sampleResolvedAlert,
        [] ++ [mkAckEvent "ev1" 10 sampleAckInput],
        { alert := sampleResolvedAlert,
          ackEvent := mkAckEvent "ev1" 10 sampleAckInput,
          syncedTo := (syncToExternalSystems [slackSyncer, pdSyncer]
            sampleResolvedAlert (mkAckEvent "ev1" 10 sampleAckInput)
            sampleAckInput.source).synced,
          syncErrors := (syncToExternalSystems [slackSyncer, pdSyncer]
            sampleResolvedAlert (mkAckEvent "ev1" 10 sampleAckInput)
            sampleAckInput.source).errs },
        (syncToExternalSystems [slackSyncer, pdSyncer] sampleResolvedAlert
          (mkAckEvent "ev1" 10 sampleAckInput) sampleAckInput.source).calls⟩) :=
  ⟨rfl, c2_resolved_is_tolerated {} [slackSyncer, pdSyncer] "ev1" 10
    [sampleResolvedAlert] [] sampleAckInput sampleResolvedAlert rfl
    (fun _ => rfl) rfl rfl⟩

/-- C4 counterexample: on the concrete resolved-alert path the audit AckEvent
is retained — the ack-event store grows from empty to one event and Execute
still succeeds, contradicting the claimed atomic rollback. -/
theorem c4_counterexample :
    SyncAckExecute {} none [] "ev2" 11 [sampleResolvedAlert] [] sampleAckInput =
      .ok ⟨[sampleResolvedAlert], [mkAckEvent "ev2" 11 sampleAckInput],
        { alert := sampleResolvedAlert,
          ackEvent := mkAckEvent "ev2" 11 sampleAckInput,
          syncedTo := [], syncErrors := [] }, []⟩ ∧
    [mkAckEvent "ev2" 11 sampleAckInput] ≠ ([] : List AckEvent) := by
  exact ⟨rfl, by decide⟩

/-- C4 amended: sync_ack.go runs no transaction — the AckEvent save and the
alert update are separate writes, the already-resolved transition error is
tolerated rather than aborting, and on that path Execute succeeds with the
audit AckEvent retained in the ack-event store (the store is changed, not
rolled back). -/
theorem c4_ack_event_retained (env : RepoEnv) (syncers : List AckSyncer)
    (newEventId : String) (now : Nat) (aStore : List Alert)
    (eStore : List AckEvent) (input : SyncAckInput) (alert : Alert)
    (hfe : env.findByIDErr = none)
    (hupd : ∀ a, env.updateErr a = none)
    (hfind : aStore.find? (fun a => a.id == input.alertID) = some alert)
    (hres : alert.state = .resolved) :
    ∃ r, SyncAckExecute env none syncers newEventId now aStore eStore input =
        .ok r ∧
      r.ackStore = eStore ++ [mkAckEvent newEventId now input] ∧
      r.ackStore ≠ eStore := by
  refine ⟨_, syncAckExecute_resolved env syncers newEventId now aStore eStore
    input alert hfe hupd hfind hres, rfl, ?_⟩
  intro hcon
  have := congrArg List.length hcon
  simp at this

/-- Witness for the amended C4 on a concrete resolved alert. -/
theorem c4_ack_event_retained_witness :
    sampleResolvedAlert.state = .resolved ∧
    ∃ r, SyncAckExecute {} none [] "ev2" 11 [sampleResolvedAlert] []
        sampleAckInput = .ok r ∧
      r.ackStore = [] ++ [mkAckEvent "ev2" 11 sampleAckInput] ∧
      r.ackStore ≠ [] :=
  ⟨rfl, c4_ack_event_retained {} [] "ev2" 11 [sampleResolvedAlert] []
    sampleAckInput sampleResolvedAlert rfl (fun _ => rfl) rfl rfl⟩

/-! ### Association-list map lemmas -/

/-- Reading back the key just written returns the written value. -/
theorem mapGet_mapSet_self (m : List (String × String)) (k v : String) :
    mapGet (mapSet m k v) k = v := by
  induction m with
  | nil => simp [mapSet, mapGet]
  | cons p rest ih =>
      by_cases hk : (p.1 == k) = true
      · simp [mapSet, mapGet, hk]
      · rw [Bool.not_eq_true] at hk
        simp only [mapSet, hk, Bool.false_eq_true, if_false]
        unfold mapGet
        rw [List.find?_cons_of_neg _ (by simp_all)]
        exact ih

/-- Writing one key does not change the value read at another key. -/
theorem mapGet_mapSet_ne (m : List (String × String)) (k k' v : String)
    (h : k' ≠ k) : mapGet (mapSet m k v) k' = mapGet m k' := by
  induction m with
  | nil =>
      unfold mapSet mapGet
      rw [List.find?_cons_of_neg _ (by simp [Ne.symm h])]
  | cons p rest ih =>
      by_cases hk : (p.1 == k) = true
      · have hp : p.1 = k := by simpa using hk
        simp only [mapSet, hk, if_true]
        unfold mapGet
        rw [List.find?_cons_of_neg _ (by simp [Ne.symm h]),
          List.find?_cons_of_neg _ (by simp [hp, Ne.symm h])]
      · rw [Bool.not_eq_true] at hk
        simp only [mapSet, hk, Bool.false_eq_true, if_false]
        by_cases hp : (p.1 == k') = true
        · unfold mapGet
          rw [List.find?_cons_of_pos _ (by simpa using hp),
            List.find?_cons_of_pos _ (by simpa using hp)]
        · rw [Bool.not_eq_true] at hp
          unfold mapGet
          rw [List.find?_cons_of_neg _ (by simp_all),
            List.find?_cons_of_neg _ (by simp_all)]
          exact ih

/-! ### Field preservation through the alert construction -/

/-- The label-copy fold changes only the labels. -/
theorem foldl_addLabel_pres (l : List (String × String)) (a : Alert) :
    (l.foldl (fun b p => Alert.AddLabel b p.1 p.2) a).id = a.id ∧
    (l.foldl (fun b p => Alert.AddLabel b p.1 p.2) a).fingerprint = a.fingerprint ∧
    (l.foldl (fun b p => Alert.AddLabel b p.1 p.2) a).state = a.state ∧
    (l.foldl (fun b p => Alert.AddLabel b p.1 p.2) a).externalReferences =
      a.externalReferences := by
  induction l generalizing a with
  | nil => exact ⟨rfl, rfl, rfl, rfl⟩
  | cons p rest ih => simpa [Alert.AddLabel] using ih (Alert.AddLabel a p.1 p.2)

/-- The copy of the input's second string map changes only that field. -/
theorem foldl_addAnnot_pres (l : List (String × String)) (a : Alert) :
    (l.foldl (fun b p => { b with annotations := mapSet b.annotations p.1 p.2 }) a).id = a.id ∧
    (l.foldl (fun b p => { b with annotations := mapSet b.annotations p.1 p.2 }) a).fingerprint = a.fingerprint ∧
    (l.foldl (fun b p => { b with annotations := mapSet b.annotations p.1 p.2 }) a).state = a.state ∧
    (l.foldl (fun b p => { b with annotations := mapSet b.annotations p.1 p.2 }) a).externalReferences =
      a.externalReferences := by
  induction l generalizing a with
  | nil => exact ⟨rfl, rfl, rfl, rfl⟩
  | cons p rest ih =>
      simpa using ih { a with annotations := mapSet a.annotations p.1 p.2 }

/-- The alert built from the input carries the fresh id, the input's
fingerprint, the active state and an empty reference map. -/
theorem mkInputAlert_fields (newId : String) (now : Nat)
    (input : ProcessAlertInput) :
    (mkInputAlert newId now input).id = newId ∧
    (mkInputAlert newId now input).fingerprint = input.fingerprint ∧
    (mkInputAlert newId now input).state = .active ∧
    (mkInputAlert newId now input).externalReferences = [] := by
  unfold mkInputAlert NewAlert
  obtain ⟨h1, h2, h3, h4⟩ := foldl_addAnnot_pres input.annotations
    (input.labels.foldl (fun b p => Alert.AddLabel b p.1 p.2)
      { id := newId, fingerprint := input.fingerprint, name := input.name,
        inst := input.inst, target := input.target, summary := input.summary,
        severity := input.severity, state := .active, labels := [],
        annotations := [], externalReferences := [],
        firedAt := input.firedAt, createdAt := now, updatedAt := now,
        description := input.description })
  obtain ⟨g1, g2, g3, g4⟩ := foldl_addLabel_pres input.labels
    { id := newId, fingerprint := input.fingerprint, name := input.name,
      inst := input.inst, target := input.target, summary := input.summary,
      severity := input.severity, state := .active, labels := [],
      annotations := [], externalReferences := [],
      firedAt := input.firedAt, createdAt := now, updatedAt := now,
      description := input.description }
  exact ⟨h1.trans g1, h2.trans g2, h3.trans g3, h4.trans g4⟩

/-! ### Store update lemmas -/

/-- Updating misses every stored alert with a different id. -/
theorem map_update_noop (others : List Alert) (a : Alert)
    (h : ∀ b ∈ others, (b.id == a.id) = false) :
    others.map (fun b => if b.id == a.id then a else b) = others := by
  induction others with
  | nil => rfl
  | cons b rest ih =>
      simp only [List.map_cons, h b (List.mem_cons_self b rest),
        Bool.false_eq_true, if_false, List.cons.injEq, true_and]
      exact ih (fun x hx => h x (List.mem_cons_of_mem b hx))

/-- Updating a store whose last element has the updated alert's id replaces
exactly that element. -/
theorem updateStore_snoc (others : List Alert) (d a : Alert)
    (hoth : ∀ b ∈ others, (b.id == a.id) = false) (hd : d.id = a.id) :
    updateStore (others ++ [d]) a = others ++ [a] := by
  unfold updateStore
  rw [List.map_append, map_update_noop others a hoth]
  simp [hd]

/-! ### Notifier fan-out lemmas -/

/-- Every configured notifier receives its Notify call, in configuration
order, regardless of other notifiers' failures. -/
theorem sendNotifications_calls (env : RepoEnv) (ns : List Notifier) :
    ∀ (store : List Alert) (a : Alert) (t : Nat),
    (sendNotifications env ns store a t).calls = ns.map (fun n => n.name) := by
  induction ns with
  | nil => intro store a t; rfl
  | cons n rest ih =>
      intro store a t
      unfold sendNotifications
      cases hn : n.notifyResult a with
      | error e => simpa using ih store a t
      | ok mid => simpa using ih _ _ t

/-- The alert handed on by storeMessageID is always the one with the new
external reference, whether or not the store update succeeded. -/
theorem storeMessageID_snd (env : RepoEnv) (store : List Alert) (a : Alert)
    (nname mid : String) (t : Nat) :
    (storeMessageID env store a nname mid t).2 =
      Alert.SetExternalReference a nname mid t := by
  unfold storeMessageID
  dsimp only
  split <;> rfl

/-- The threaded alert keeps its id, fingerprint and state through the
notifier loop. -/
theorem sendNotifications_alert_pres (env : RepoEnv) (ns : List Notifier) :
    ∀ (store : List Alert) (a : Alert) (t : Nat),
    (sendNotifications env ns store a t).alert.id = a.id ∧
    (sendNotifications env ns store a t).alert.fingerprint = a.fingerprint ∧
    (sendNotifications env ns store a t).alert.state = a.state := by
  induction ns with
  | nil => intro store a t; exact ⟨rfl, rfl, rfl⟩
  | cons n rest ih =>
      intro store a t
      unfold sendNotifications
      cases hn : n.notifyResult a with
      | error e => simpa using ih store a t
      | ok mid =>
          dsimp only
          rw [storeMessageID_snd]
          refine ⟨?_, ?_, ?_⟩
          · exact (ih _ _ t).1.trans (by simp [Alert.SetExternalReference])
          · exact (ih _ _ t).2.1.trans (by simp [Alert.SetExternalReference])
          · exact (ih _ _ t).2.2.trans (by simp [Alert.SetExternalReference])

/-- The store after the notifier loop is the untouched prefix plus one final
version of the threaded alert, which keeps the id, fingerprint and state. -/
theorem sendNotifications_shape (env : RepoEnv) (ns : List Notifier) :
    ∀ (others : List Alert) (d a : Alert) (t : Nat),
    (∀ b ∈ others, (b.id == a.id) = false) →
    d.id = a.id → d.fingerprint = a.fingerprint → d.state = a.state →
    ∃ c, c.id = a.id ∧ c.fingerprint = a.fingerprint ∧ c.state = a.state ∧
      (sendNotifications env ns (others ++ [d]) a t).store = others ++ [c] := by
  induction ns with
  | nil =>
      intro others d a t _ h1 h2 h3
      exact ⟨d, h1, h2, h3, rfl⟩
  | cons n rest ih =>
      intro others d a t hoth h1 h2 h3
      unfold sendNotifications
      cases hn : n.notifyResult a with
      | error e =>
          obtain ⟨c, hc1, hc2, hc3, hc4⟩ := ih others d a t hoth h1 h2 h3
          exact ⟨c, hc1, hc2, hc3, by simpa using hc4⟩
      | ok mid =>
          dsimp only
          rw [storeMessageID_snd]
          unfold storeMessageID updateAlert
          dsimp only
          cases hu : env.updateErr (Alert.SetExternalReference a n.name mid t) with
          | some e =>
              dsimp only
              obtain ⟨c, hc1, hc2, hc3, hc4⟩ := ih others d
                (Alert.SetExternalReference a n.name mid t) t hoth h1 h2 h3
              exact ⟨c, hc1, hc2, hc3, hc4⟩
          | none =>
              dsimp only
              have hrepl : updateStore (others ++ [d])
                  (Alert.SetExternalReference a n.name mid t) =
                  others ++ [Alert.SetExternalReference a n.name mid t] :=
                updateStore_snoc others d _ hoth h1
              rw [hrepl]
              obtain ⟨c, hc1, hc2, hc3, hc4⟩ := ih others
                (Alert.SetExternalReference a n.name mid t)
                (Alert.SetExternalReference a n.name mid t) t hoth rfl rfl rfl
              exact ⟨c, hc1, hc2, hc3, hc4⟩

/-- When the store's Update always succeeds, the store after the notifier loop
is the untouched prefix plus exactly the final threaded alert. -/
theorem sendNotifications_store_upd (env : RepoEnv)
    (hupd : ∀ x, env.updateErr x = none) (ns : List Notifier) :
    ∀ (others : List Alert) (a : Alert) (t : Nat),
    (∀ b ∈ others, (b.id == a.id) = false) →
    (sendNotifications env ns (others ++ [a]) a t).store =
      others ++ [(sendNotifications env ns (others ++ [a]) a t).alert] := by
  induction ns with
  | nil => intro others a t _; rfl
  | cons n rest ih =>
      intro others a t hoth
      unfold sendNotifications
      cases hn : n.notifyResult a with
      | error e => simpa using ih others a t hoth
      | ok mid =>
          dsimp only
          rw [storeMessageID_snd]
          unfold storeMessageID updateAlert
          dsimp only
          rw [hupd]
          dsimp only
          have hrepl : updateStore (others ++ [a])
              (Alert.SetExternalReference a n.name mid t) =
              others ++ [Alert.SetExternalReference a n.name mid t] :=
            updateStore_snoc others a _ hoth rfl
          rw [hrepl]
          exact ih others (Alert.SetExternalReference a n.name mid t) t hoth

/-- A notifier that fails on every alert gets its name and error recorded in
the failure list, whatever the other notifiers do. -/
theorem sendNotifications_failed_mem (env : RepoEnv) (ns : List Notifier) :
    ∀ (store : List Alert) (a : Alert) (t : Nat) (n : Notifier) (e : String),
    n ∈ ns → (∀ x, n.notifyResult x = .error e) →
    (⟨n.name, e⟩ : NotificationError) ∈ (sendNotifications env ns store a t).failed := by
  induction ns with
  | nil => intro store a t n e hmem _; cases hmem
  | cons m rest ih =>
      intro store a t n e hmem hfail
      unfold sendNotifications
      rcases List.mem_cons.mp hmem with hEq | hmem'
      · subst hEq
        rw [hfail a]
        dsimp only
        exact List.mem_cons_self _ _
      · cases hm : m.notifyResult a with
        | error e' =>
            dsimp only
            exact List.mem_cons_of_mem _ (ih store a t n e hmem' hfail)
        | ok mid =>
            dsimp only
            exact ih _ _ t n e hmem' hfail

/-- A notifier that succeeds on every alert gets its name recorded in the
sent list, whatever the other notifiers do. -/
theorem sendNotifications_sent_mem (env : RepoEnv) (ns : List Notifier) :
    ∀ (store : List Alert) (a : Alert) (t : Nat) (n : Notifier) (h : String),
    n ∈ ns → (∀ x, n.notifyResult x = .ok h) →
    n.name ∈ (sendNotifications env ns store a t).sent := by
  induction ns with
  | nil => intro store a t n h hmem _; cases hmem
  | cons m rest ih =>
      intro store a t n h hmem hok
      unfold sendNotifications
      rcases List.mem_cons.mp hmem with hEq | hmem'
      · subst hEq
        rw [hok a]
        dsimp only
        exact List.mem_cons_self _ _
      · cases hm : m.notifyResult a with
        | error e' =>
            dsimp only
            exact ih store a t n h hmem' hok
        | ok mid =>
            dsimp only
            exact List.mem_cons_of_mem _ (ih _ _ t n h hmem' hok)

/-- External references at keys no remaining notifier carries are untouched by
the rest of the loop. -/
theorem sendNotifications_ref_pres (env : RepoEnv) (ns : List Notifier) :
    ∀ (store : List Alert) (a : Alert) (t : Nat) (k : String),
    (∀ n ∈ ns, n.name ≠ k) →
    Alert.GetExternalReference (sendNotifications env ns store a t).alert k =
      Alert.GetExternalReference a k := by
  induction ns with
  | nil => intro store a t k _; rfl
  | cons m rest ih =>
      intro store a t k hk
      unfold sendNotifications
      cases hm : m.notifyResult a with
      | error e =>
          dsimp only
          exact ih store a t k (fun n hn => hk n (List.mem_cons_of_mem m hn))
      | ok mid =>
          dsimp only
          rw [storeMessageID_snd]
          rw [ih _ _ t k (fun n hn => hk n (List.mem_cons_of_mem m hn))]
          unfold Alert.GetExternalReference Alert.SetExternalReference
          exact mapGet_mapSet_ne _ _ _ _ (hk m (List.mem_cons_self m rest)).symm

/-- With pairwise distinct notifier names, the handle of a notifier that
succeeds on every alert with that handle ends up stored in the threaded
alert's external-reference map. -/
theorem sendNotifications_ref (env : RepoEnv) (ns : List Notifier) :
    ∀ (store : List Alert) (a : Alert) (t : Nat) (n : Notifier) (h : String),
    (ns.map (fun m => m.name)).Nodup → n ∈ ns →
    (∀ x, n.notifyResult x = .ok h) →
    Alert.GetExternalReference (sendNotifications env ns store a t).alert n.name
      = h := by
  induction ns with
  | nil => intro store a t n h _ hmem _; cases hmem
  | cons m rest ih =>
      intro store a t n h hnd hmem hok
      have hnd' := List.nodup_cons.mp (by rw [List.map_cons] at hnd; exact hnd)
      unfold sendNotifications
      rcases List.mem_cons.mp hmem with hEq | hmem'
      · subst hEq
        rw [hok a]
        dsimp only
        rw [storeMessageID_snd]
        rw [sendNotifications_ref_pres env rest _ _ t n.name
          (fun x hx hxe => hnd'.1 (hxe ▸ List.mem_map_of_mem (fun y => y.name) hx))]
        unfold Alert.GetExternalReference Alert.SetExternalReference
        exact mapGet_mapSet_self _ _ _
      · cases hm : m.notifyResult a with
        | error e =>
            dsimp only
            exact ih store a t n h hnd'.2 hmem' hok
        | ok mid =>
            dsimp only
            exact ih _ _ t n h hnd'.2 hmem' hok

/-! ### ProcessAlertExecute path lemmas -/

/-- A store with no alert on the fingerprint filters to the empty list. -/
theorem filter_fp_nil (store : List Alert) (fp : String)
    (hfp : ∀ b ∈ store, (b.fingerprint == fp) = false) :
    store.filter (fun a => a.fingerprint == fp) = [] := by
  refine List.filter_eq_nil_iff.mpr (fun a ha => ?_)
  rw [hfp a ha]
  simp

/-- On the fresh firing path with a healthy find and save and no matching
silence, Execute saves the constructed alert and runs the notifier loop. -/
theorem processAlert_fresh_firing (env : ProcEnv) (newId : String) (now : Nat)
    (store : List Alert) (input : ProcessAlertInput)
    (hstatus : (input.status == "resolved") = false)
    (hff : findFiringAlert
      (store.filter (fun a => a.fingerprint == input.fingerprint)) = none)
    (hfind : env.repo.findByFingerprintErr = none)
    (hsave : env.repo.saveErr = none)
    (hsil : (env.silenceFind (mkInputAlert newId now input)).1 = []) :
    ProcessAlertExecute env newId now store input =
      .ok ⟨(sendNotifications env.repo env.notifiers
          (store ++ [mkInputAlert newId now input])
          (mkInputAlert newId now input) now).store,
        { alertID := newId, isNew := true,
          notificationsSent := (sendNotifications env.repo env.notifiers
            (store ++ [mkInputAlert newId now input])
            (mkInputAlert newId now input) now).sent,
          notificationsFailed := (sendNotifications env.repo env.notifiers
            (store ++ [mkInputAlert newId now input])
            (mkInputAlert newId now input) now).failed },
        (sendNotifications env.repo env.notifiers
          (store ++ [mkInputAlert newId now input])
          (mkInputAlert newId now input) now).calls, []⟩ := by
  unfold ProcessAlertExecute findByFingerprint saveAlert
  rw [hfind]
  dsimp only
  simp only [hstatus, Bool.false_eq_true, if_false]
  rw [hff]
  dsimp only
  simp only [hsil, List.length_nil, gt_iff_lt, lt_self_iff_false, if_false]
  rw [hsave]
  dsimp only
  rw [(mkInputAlert_fields newId now input).1]

/-- On the fresh firing path with a matching silence, Execute saves the
constructed alert, skips notification, and reports it silenced. -/
theorem processAlert_fresh_silenced (env : ProcEnv) (newId : String) (now : Nat)
    (store : List Alert) (input : ProcessAlertInput)
    (hstatus : (input.status == "resolved") = false)
    (hff : findFiringAlert
      (store.filter (fun a => a.fingerprint == input.fingerprint)) = none)
    (hfind : env.repo.findByFingerprintErr = none)
    (hsave : env.repo.saveErr = none)
    (hsil : 0 < (env.silenceFind (mkInputAlert newId now input)).1.length) :
    ProcessAlertExecute env newId now store input =
      .ok ⟨store ++ [mkInputAlert newId now input],
        { alertID := newId, isNew := true, isSilenced := true }, [], []⟩ := by
  unfold ProcessAlertExecute findByFingerprint saveAlert
  rw [hfind]
  dsimp only
  simp only [hstatus, Bool.false_eq_true, if_false]
  rw [hff]
  dsimp only
  rw [if_pos (by simpa using hsil)]
  rw [hsave]
  dsimp only
  rw [(mkInputAlert_fields newId now input).1]

/-- On the firing path with an existing non-resolved alert, Execute is a pure
dedup no-op: unchanged store, IsNew false, no calls of any kind. -/
theorem processAlert_dedup (env : ProcEnv) (newId : String) (now : Nat)
    (store : List Alert) (input : ProcessAlertInput) (a : Alert)
    (hstatus : (input.status == "resolved") = false)
    (hff : findFiringAlert
      (store.filter (fun x => x.fingerprint == input.fingerprint)) = some a)
    (hfind : env.repo.findByFingerprintErr = none) :
    ProcessAlertExecute env newId now store input =
      .ok ⟨store, { alertID := a.id, isNew := false }, [], []⟩ := by
  unfold ProcessAlertExecute findByFingerprint
  rw [hfind]
  dsimp only
  simp only [hstatus, Bool.false_eq_true, if_false]
  rw [hff]

/-- A fingerprint-lookup failure aborts Execute with the wrapped error. -/
theorem processAlert_find_err (env : ProcEnv) (newId : String) (now : Nat)
    (store : List Alert) (input : ProcessAlertInput) (e : String)
    (hfind : env.repo.findByFingerprintErr = some e) :
    ProcessAlertExecute env newId now store input =
      .error ("finding alert by fingerprint: " ++ e) := by
  unfold ProcessAlertExecute findByFingerprint
  rw [hfind]

/-- A save failure on the fresh unsilenced firing path aborts Execute with the
wrapped error. -/
theorem processAlert_save_err (env : ProcEnv) (newId : String) (now : Nat)
    (store : List Alert) (input : ProcessAlertInput) (e : String)
    (hstatus : (input.status == "resolved") = false)
    (hff : findFiringAlert
      (store.filter (fun a => a.fingerprint == input.fingerprint)) = none)
    (hfind : env.repo.findByFingerprintErr = none)
    (hsave : env.repo.saveErr = some e)
    (hsil : (env.silenceFind (mkInputAlert newId now input)).1 = []) :
    ProcessAlertExecute env newId now store input =
      .error ("saving alert: " ++ e) := by
  unfold ProcessAlertExecute findByFingerprint saveAlert
  rw [hfind]
  dsimp only
  simp only [hstatus, Bool.false_eq_true, if_false]
  rw [hff]
  dsimp only
  simp only [hsil, List.length_nil, gt_iff_lt, lt_self_iff_false, if_false]
  rw [hsave]

/-- An update failure while persisting the resolved alert aborts Execute with
the wrapped error. -/
theorem processAlert_resolve_update_err (env : ProcEnv) (newId : String)
    (now : Nat) (store : List Alert) (input : ProcessAlertInput) (a : Alert)
    (e : String)
    (hstatus : input.status = "resolved")
    (hfind : env.repo.findByFingerprintErr = none)
    (hff : findFiringAlert
      (store.filter (fun x => x.fingerprint == input.fingerprint)) = some a)
    (hupd : env.repo.updateErr (Alert.Resolve a now) = some e) :
    ProcessAlertExecute env newId now store input =
      .error ("updating resolved alert: " ++ e) := by
  unfold ProcessAlertExecute findByFingerprint updateAlert
  rw [hfind]
  dsimp only
  rw [if_pos (by simp [hstatus])]
  rw [hff]
  dsimp only
  rw [hupd]

/-- Appending one alert on the fingerprint to a store without it filters to
that one alert. -/
theorem filter_fp_snoc (store : List Alert) (c : Alert) (fp : String)
    (hfp : ∀ b ∈ store, (b.fingerprint == fp) = false)
    (hc : c.fingerprint = fp) :
    (store ++ [c]).filter (fun x => x.fingerprint == fp) = [c] := by
  rw [List.filter_append, filter_fp_nil store fp hfp]
  simp [List.filter_cons, hc]

/-- A singleton list holding an active alert has it as its firing alert. -/
theorem findFiring_singleton (c : Alert) (h : c.state = .active) :
    findFiringAlert [c] = some c := by
  unfold findFiringAlert
  rw [List.find?_cons_of_pos]
  unfold Alert.IsFiring
  rw [h]
  rfl

/-- C1: two firing events for the same fingerprint with no resolve in between
produce exactly one stored alert on that fingerprint; the first call returns
IsNew true, and the second is a no-op success with IsNew false that leaves the
store unchanged, saves nothing, and makes no notifier calls. -/
theorem c1_dedup_idempotence (env : ProcEnv) (newId newId2 : String)
    (now now2 : Nat) (store : List Alert) (input input2 : ProcessAlertInput)
    (hfp : ∀ b ∈ store, (b.fingerprint == input.fingerprint) = false)
    (hid : ∀ b ∈ store, (b.id == newId) = false)
    (hstat1 : input.status = "firing")
    (hstat2 : input2.status = "firing")
    (hfp2 : input2.fingerprint = input.fingerprint)
    (hfind : env.repo.findByFingerprintErr = none)
    (hsave : env.repo.saveErr = none) :
    ∃ r1, ProcessAlertExecute env newId now store input = .ok r1 ∧
      r1.output.isNew = true ∧
      (r1.store.filter (fun b => b.fingerprint == input.fingerprint)).length = 1 ∧
      ProcessAlertExecute env newId2 now2 r1.store input2 =
        .ok ⟨r1.store, { alertID := newId, isNew := false }, [], []⟩ := by
  have hstatus : (input.status == "resolved") = false := by rw [hstat1]; rfl
  have hstatus2 : (input2.status == "resolved") = false := by rw [hstat2]; rfl
  have hfilter := filter_fp_nil store input.fingerprint hfp
  have hff : findFiringAlert
      (store.filter (fun a => a.fingerprint == input.fingerprint)) = none := by
    rw [hfilter]; rfl
  obtain ⟨hA1, hA2, hA3, hA4⟩ := mkInputAlert_fields newId now input
  by_cases hs : (env.silenceFind (mkInputAlert newId now input)).1 = []
  · have hrun := processAlert_fresh_firing env newId now store input hstatus hff
      hfind hsave hs
    have hid' : ∀ b ∈ store, (b.id == (mkInputAlert newId now input).id) = false := by
      intro b hb
      rw [hA1]
      exact hid b hb
    obtain ⟨c, hc1, hc2, hc3, hstore⟩ := sendNotifications_shape env.repo
      env.notifiers store (mkInputAlert newId now input)
      (mkInputAlert newId now input) now hid' rfl rfl rfl
    have hcfp : c.fingerprint = input.fingerprint := by rw [hc2, hA2]
    have hcid : c.id = newId := by rw [hc1, hA1]
    have hcst : c.state = .active := by rw [hc3, hA3]
    have hfilter1 := filter_fp_snoc store c input.fingerprint hfp hcfp
    refine ⟨_, hrun, rfl, ?_, ?_⟩
    · dsimp only
      rw [hstore, hfilter1]
      rfl
    · dsimp only
      rw [hstore]
      have hff2 : findFiringAlert ((store ++ [c]).filter
          (fun x => x.fingerprint == input2.fingerprint)) = some c := by
        rw [hfp2, hfilter1]
        exact findFiring_singleton c hcst
      have hded := processAlert_dedup env newId2 now2 (store ++ [c]) input2 c
        hstatus2 hff2 hfind
      rw [hcid] at hded
      exact hded
  · have hsl : 0 < (env.silenceFind (mkInputAlert newId now input)).1.length := by
      cases hsE : (env.silenceFind (mkInputAlert newId now input)).1 with
      | nil => exact absurd hsE hs
      | cons x xs => simp
    have hrun := processAlert_fresh_silenced env newId now store input hstatus
      hff hfind hsave hsl
    have hfilter1 := filter_fp_snoc store (mkInputAlert newId now input)
      input.fingerprint hfp hA2
    refine ⟨_, hrun, rfl, ?_, ?_⟩
    · dsimp only
      rw [hfilter1]
      rfl
    · dsimp only
      have hff2 : findFiringAlert ((store ++ [mkInputAlert newId now input]).filter
          (fun x => x.fingerprint == input2.fingerprint)) =
          some (mkInputAlert newId now input) := by
        rw [hfp2, hfilter1]
        exact findFiring_singleton _ hA3
      have hded := processAlert_dedup env newId2 now2
        (store ++ [mkInputAlert newId now input]) input2
        (mkInputAlert newId now input) hstatus2 hff2 hfind
      rw [hA1] at hded
      exact hded

/-- Environment with healthy stores, no silences, and slack and pagerduty
notifiers that always succeed. -/
def envTwoNotifiers : ProcEnv :=
  ⟨{}, fun _ => ([], none),
    [⟨"slack", fun _ => .ok "m1", fun _ _ => none⟩,
     ⟨"pagerduty", fun _ => .ok "m2", fun _ _ => none⟩]⟩

/-- Concrete firing input on fingerprint fp-1. -/
def fireInput : ProcessAlertInput :=
  { fingerprint := "fp-1", status := "firing", severity := "critical" }

/-- Witness for C1 on an empty store with two healthy notifiers. -/
theorem c1_dedup_idempotence_witness :
    ∃ r1, ProcessAlertExecute envTwoNotifiers "id1" 7 [] fireInput = .ok r1 ∧
      r1.output.isNew = true ∧
      (r1.store.filter (fun b => b.fingerprint == fireInput.fingerprint)).length
        = 1 ∧
      ProcessAlertExecute envTwoNotifiers "id2" 8 r1.store fireInput =
        .ok ⟨r1.store, { alertID := "id1", isNew := false }, [], []⟩ :=
  c1_dedup_idempotence envTwoNotifiers "id1" "id2" 7 8 [] fireInput fireInput
    (by simp) (by simp) rfl rfl rfl rfl rfl

/-- C6: on the fresh firing path every configured notifier receives its Notify
call whatever the others return; a notifier that fails is recorded in
NotificationsFailed; a notifier that succeeds is recorded in NotificationsSent
and its handle is stored in the persisted alert's external-reference map; and
Execute returns success throughout. -/
theorem c6_notifier_failure_isolation (env : ProcEnv) (newId : String)
    (now : Nat) (store : List Alert) (input : ProcessAlertInput)
    (hstatus : input.status = "firing")
    (hff : findFiringAlert
      (store.filter (fun a => a.fingerprint == input.fingerprint)) = none)
    (hfind : env.repo.findByFingerprintErr = none)
    (hsave : env.repo.saveErr = none)
    (hupd : ∀ x, env.repo.updateErr x = none)
    (hsil : (env.silenceFind (mkInputAlert newId now input)).1 = [])
    (hid : ∀ b ∈ store, (b.id == newId) = false)
    (hnd : (env.notifiers.map (fun n => n.name)).Nodup) :
    ∃ r, ProcessAlertExecute env newId now store input = .ok r ∧
      r.notifyCalls = env.notifiers.map (fun n => n.name) ∧
      (∀ n e, n ∈ env.notifiers → (∀ x, n.notifyResult x = .error e) →
        (⟨n.name, e⟩ : NotificationError) ∈ r.output.notificationsFailed) ∧
      (∀ n h, n ∈ env.notifiers → (∀ x, n.notifyResult x = .ok h) →
        n.name ∈ r.output.notificationsSent ∧
        ∃ c ∈ r.store, Alert.GetExternalReference c n.name = h) := by
  have hstatusb : (input.status == "resolved") = false := by rw [hstatus]; rfl
  have hrun := processAlert_fresh_firing env newId now store input hstatusb hff
    hfind hsave hsil
  refine ⟨_, hrun, ?_, ?_, ?_⟩
  · exact sendNotifications_calls env.repo env.notifiers _ _ now
  · intro n e hn hfail
    exact sendNotifications_failed_mem env.repo env.notifiers _ _ now n e hn hfail
  · intro n h hn hok
    refine ⟨sendNotifications_sent_mem env.repo env.notifiers _ _ now n h hn hok,
      ?_⟩
    have hid' : ∀ b ∈ store,
        (b.id == (mkInputAlert newId now input).id) = false := by
      intro b hb
      rw [(mkInputAlert_fields newId now input).1]
      exact hid b hb
    have hstoreEq := sendNotifications_store_upd env.repo hupd env.notifiers
      store (mkInputAlert newId now input) now hid'
    refine ⟨(sendNotifications env.repo env.notifiers
      (store ++ [mkInputAlert newId now input])
      (mkInputAlert newId now input) now).alert, ?_, ?_⟩
    · dsimp only
      rw [hstoreEq]
      simp
    · exact sendNotifications_ref env.repo env.notifiers _ _ now n h hnd hn hok

/-- Slack notifier succeeding with handle m1. -/
def slackNotifier : Notifier := ⟨"slack", fun _ => .ok "m1", fun _ _ => none⟩

/-- Webhook notifier failing every Notify call with boom. -/
def failingNotifier : Notifier :=
  ⟨"webhook", fun _ => .error "boom", fun _ _ => none⟩

/-- PagerDuty notifier succeeding with handle m3. -/
def pdNotifier : Notifier := ⟨"pagerduty", fun _ => .ok "m3", fun _ _ => none⟩

/-- Environment with three notifiers of which the middle one always fails. -/
def envThreeNotifiers : ProcEnv :=
  ⟨{}, fun _ => ([], none), [slackNotifier, failingNotifier, pdNotifier]⟩

/-- Witness for C6: with notifiers slack, webhook (failing) and pagerduty, all
three are called, the webhook failure is recorded, and the two successful
handles are stored. -/
theorem c6_notifier_failure_isolation_witness :
    ∃ r, ProcessAlertExecute envThreeNotifiers "id1" 7 [] fireInput = .ok r ∧
      r.notifyCalls = ["slack", "webhook", "pagerduty"] ∧
      (⟨"webhook", "boom"⟩ : NotificationError) ∈ r.output.notificationsFailed ∧
      ("slack" ∈ r.output.notificationsSent ∧
        ∃ c ∈ r.store, Alert.GetExternalReference c "slack" = "m1") ∧
      ("pagerduty" ∈ r.output.notificationsSent ∧
        ∃ c ∈ r.store, Alert.GetExternalReference c "pagerduty" = "m3") := by
  obtain ⟨r, hr, hcalls, hfailed, hsent⟩ :=
    c6_notifier_failure_isolation envThreeNotifiers "id1" 7 [] fireInput rfl rfl
      rfl rfl (fun _ => rfl) rfl (by simp) (by decide)
  exact ⟨r, hr, hcalls.trans rfl,
    hfailed failingNotifier "boom"
      (List.mem_cons_of_mem _ (List.mem_cons_self _ _)) (fun _ => rfl),
    hsent slackNotifier "m1" (List.mem_cons_self _ _) (fun _ => rfl),
    hsent pdNotifier "m3"
      (List.mem_cons_of_mem _ (List.mem_cons_of_mem _ (List.mem_cons_self _ _)))
      (fun _ => rfl)⟩

/-- C7: when the silence store fails (returning no silences and an error), the
engine behaves exactly as if no silence matched — same result as with a
healthy empty silence store — and on the fresh firing path the alert is
persisted, every notifier is invoked, IsSilenced is false, and Execute
succeeds. -/
theorem c7_silence_fail_open (env : ProcEnv) (newId : String) (now : Nat)
    (store : List Alert) (input : ProcessAlertInput) (msg : String)
    (hstatus : input.status = "firing")
    (hff : findFiringAlert
      (store.filter (fun a => a.fingerprint == input.fingerprint)) = none)
    (hfind : env.repo.findByFingerprintErr = none)
    (hsave : env.repo.saveErr = none)
    (hid : ∀ b ∈ store, (b.id == newId) = false)
    (hsil : ∀ a, env.silenceFind a = ([], some msg)) :
    ProcessAlertExecute env newId now store input =
      ProcessAlertExecute { env with silenceFind := fun _ => ([], none) }
        newId now store input ∧
    ∃ r, ProcessAlertExecute env newId now store input = .ok r ∧
      r.output.isSilenced = false ∧ r.output.isNew = true ∧
      r.notifyCalls = env.notifiers.map (fun n => n.name) ∧
      ∃ c ∈ r.store, c.id = newId ∧ c.fingerprint = input.fingerprint := by
  have hstatusb : (input.status == "resolved") = false := by rw [hstatus]; rfl
  have h1 := processAlert_fresh_firing env newId now store input hstatusb hff
    hfind hsave (by rw [hsil])
  have h2 := processAlert_fresh_firing
    { env with silenceFind := fun _ => ([], none) } newId now store input
    hstatusb hff hfind hsave rfl
  refine ⟨h1.trans h2.symm, _, h1, rfl, rfl,
    sendNotifications_calls env.repo env.notifiers _ _ now, ?_⟩
  have hid' : ∀ b ∈ store,
      (b.id == (mkInputAlert newId now input).id) = false := by
    intro b hb
    rw [(mkInputAlert_fields newId now input).1]
    exact hid b hb
  obtain ⟨c, hc1, hc2, hc3, hstore⟩ := sendNotifications_shape env.repo
    env.notifiers store (mkInputAlert newId now input)
    (mkInputAlert newId now input) now hid' rfl rfl rfl
  refine ⟨c, ?_, ?_, ?_⟩
  · dsimp only
    rw [hstore]
    simp
  · rw [hc1, (mkInputAlert_fields newId now input).1]
  · rw [hc2, (mkInputAlert_fields newId now input).2.1]

/-- Environment whose silence store always fails, with one healthy notifier. -/
def envSilenceErr : ProcEnv :=
  ⟨{}, fun _ => ([], some "silence db down"), [slackNotifier]⟩

/-- Witness for C7: with a failing silence store, a fresh firing alert is
processed as unsilenced, saved, and notified. -/
theorem c7_silence_fail_open_witness :
    ProcessAlertExecute envSilenceErr "id1" 7 [] fireInput =
      ProcessAlertExecute
        { envSilenceErr with silenceFind := fun _ => ([], none) }
        "id1" 7 [] fireInput ∧
    ∃ r, ProcessAlertExecute envSilenceErr "id1" 7 [] fireInput = .ok r ∧
      r.output.isSilenced = false ∧ r.output.isNew = true ∧
      r.notifyCalls = ["slack"] ∧
      ∃ c ∈ r.store, c.id = "id1" ∧ c.fingerprint = fireInput.fingerprint := by
  obtain ⟨heq, r, hr, hs, hn, hcalls, hc⟩ :=
    c7_silence_fail_open envSilenceErr "id1" 7 [] fireInput "silence db down"
      rfl rfl rfl rfl (by simp) (fun _ => rfl)
  exact ⟨heq, r, hr, hs, hn, hcalls.trans rfl, hc⟩

/-- Environment whose store Update always fails, with one healthy notifier. -/
def envUpdateFail : ProcEnv :=
  ⟨{ updateErr := fun _ => some "db down" }, fun _ => ([], none),
    [slackNotifier]⟩

/-- C8 counterexample: a concrete run where the Update persisting the slack
handle right after a successful notify fails, yet Execute returns success (the
alert is stored without the reference), contradicting the claim that every
store write failure aborts. -/
theorem c8_counterexample :
    ProcessAlertExecute envUpdateFail "id1" 7 [] fireInput =
      .ok ⟨[mkInputAlert "id1" 7 fireInput],
        { alertID := "id1", isNew := true, notificationsSent := ["slack"] },
        ["slack"], []⟩ := by
  rfl

/-- C8 amended: the store calls made directly by Execute abort and surface —
the fingerprint lookup, the save of the new alert, and the update persisting
the resolved alert — but the Update inside storeMessageID that persists a
notifier's handle is logged and swallowed: Execute still succeeds when it
fails. -/
theorem c8_store_failures_abort_except_handle_persist (env : ProcEnv)
    (newId : String) (now : Nat) (store : List Alert)
    (input : ProcessAlertInput) :
    (∀ e, env.repo.findByFingerprintErr = some e →
      ProcessAlertExecute env newId now store input =
        .error ("finding alert by fingerprint: " ++ e)) ∧
    (∀ e, (input.status == "resolved") = false →
      findFiringAlert
        (store.filter (fun a => a.fingerprint == input.fingerprint)) = none →
      env.repo.findByFingerprintErr = none →
      env.repo.saveErr = some e →
      (env.silenceFind (mkInputAlert newId now input)).1 = [] →
      ProcessAlertExecute env newId now store input =
        .error ("saving alert: " ++ e)) ∧
    (∀ e a, input.status = "resolved" →
      env.repo.findByFingerprintErr = none →
      findFiringAlert
        (store.filter (fun x => x.fingerprint == input.fingerprint)) = some a →
      env.repo.updateErr (Alert.Resolve a now) = some e →
      ProcessAlertExecute env newId now store input =
        .error ("updating resolved alert: " ++ e)) ∧
    ((input.status == "resolved") = false →
      findFiringAlert
        (store.filter (fun a => a.fingerprint == input.fingerprint)) = none →
      env.repo.findByFingerprintErr = none →
      env.repo.saveErr = none →
      (env.silenceFind (mkInputAlert newId now input)).1 = [] →
      (ProcessAlertExecute env newId now store input).isOk = true) := by
  refine ⟨fun e he => processAlert_find_err env newId now store input e he,
    fun e h1 h2 h3 h4 h5 =>
      processAlert_save_err env newId now store input e h1 h2 h3 h4 h5,
    fun e a h1 h2 h3 h4 =>
      processAlert_resolve_update_err env newId now store input a e h1 h2 h3 h4,
    fun h1 h2 h3 h4 h5 => ?_⟩
  rw [processAlert_fresh_firing env newId now store input h1 h2 h3 h4 h5]
  rfl

/-- Environment whose fingerprint lookup always fails. -/
def envFindFail : ProcEnv :=
  ⟨{ findByFingerprintErr := some "db down" }, fun _ => ([], none), []⟩

/-- Environment whose save always fails. -/
def envSaveFail : ProcEnv :=
  ⟨{ saveErr := some "db down" }, fun _ => ([], none), []⟩

/-- Concrete resolved event on fingerprint fp-1. -/
def resolvedInput : ProcessAlertInput :=
  { fingerprint := "fp-1", status := "resolved" }

/-- Concrete stored active alert on fingerprint fp-1. -/
def storedActiveAlert : Alert :=
  { id := "a9", fingerprint := "fp-1", state := .active }

/-- Witness for the amended C8: the three direct store failures abort with the
wrapped errors, while the swallowed handle-persist failure still succeeds. -/
theorem c8_store_failures_witness :
    ProcessAlertExecute envFindFail "id1" 7 [] fireInput =
      .error "finding alert by fingerprint: db down" ∧
    ProcessAlertExecute envSaveFail "id1" 7 [] fireInput =
      .error "saving alert: db down" ∧
    ProcessAlertExecute envUpdateFail "id1" 7 [storedActiveAlert]
      resolvedInput = .error "updating resolved alert: db down" ∧
    (ProcessAlertExecute envUpdateFail "id1" 7 [] fireInput).isOk = true :=
  ⟨(c8_store_failures_abort_except_handle_persist envFindFail "id1" 7 []
      fireInput).1 "db down" rfl,
   (c8_store_failures_abort_except_handle_persist envSaveFail "id1" 7 []
      fireInput).2.1 "db down" rfl rfl rfl rfl rfl,
   (c8_store_failures_abort_except_handle_persist envUpdateFail "id1" 7
      [storedActiveAlert] resolvedInput).2.2.1 "db down" storedActiveAlert
      rfl rfl rfl rfl,
   (c8_store_failures_abort_except_handle_persist envUpdateFail "id1" 7 []
      fireInput).2.2.2 rfl rfl rfl rfl rfl⟩

/-- C10: any status other than resolved is handled exactly like firing: the
run equals the run with status replaced by firing; an existing non-resolved
alert on the fingerprint makes it a dedup no-op; otherwise a new alert is
created, persisted and notified rather than the input being rejected. -/
theorem c10_unknown_status_firing (env : ProcEnv) (newId : String) (now : Nat)
    (store : List Alert) (input : ProcessAlertInput)
    (h : input.status ≠ "resolved") :
    ProcessAlertExecute env newId now store input =
      ProcessAlertExecute env newId now store
        { input with status := "firing" } ∧
    (∀ a, findFiringAlert
        (store.filter (fun x => x.fingerprint == input.fingerprint)) = some a →
      env.repo.findByFingerprintErr = none →
      ProcessAlertExecute env newId now store input =
        .ok ⟨store, { alertID := a.id, isNew := false }, [], []⟩) ∧
    (findFiringAlert
        (store.filter (fun x => x.fingerprint == input.fingerprint)) = none →
      env.repo.findByFingerprintErr = none →
      env.repo.saveErr = none →
      (env.silenceFind (mkInputAlert newId now input)).1 = [] →
      ∃ r, ProcessAlertExecute env newId now store input = .ok r ∧
        r.output.isNew = true ∧
        r.notifyCalls = env.notifiers.map (fun n => n.name)) := by
  have hb : (input.status == "resolved") = false := by
    cases hq : input.status == "resolved" with
    | false => rfl
    | true => exact absurd (eq_of_beq hq) h
  refine ⟨?_, ?_, ?_⟩
  · unfold ProcessAlertExecute
    rw [hb]
    rfl
  · intro a hfa hfind
    exact processAlert_dedup env newId now store input a hb hfa hfind
  · intro hfa hfind hsave hsil
    exact ⟨_, processAlert_fresh_firing env newId now store input hb hfa hfind
      hsave hsil, rfl, sendNotifications_calls env.repo env.notifiers _ _ now⟩

/-- Concrete input with an unrecognized status value. -/
def weirdInput : ProcessAlertInput :=
  { fingerprint := "fp-1", status := "wibble" }

/-- Witness for C10: the status wibble is processed exactly like firing and
creates and notifies a new alert on an empty store. -/
theorem c10_unknown_status_firing_witness :
    ProcessAlertExecute envTwoNotifiers "id1" 7 [] weirdInput =
      ProcessAlertExecute envTwoNotifiers "id1" 7 []
        { weirdInput with status := "firing" } ∧
    ∃ r, ProcessAlertExecute envTwoNotifiers "id1" 7 [] weirdInput = .ok r ∧
      r.output.isNew = true ∧ r.notifyCalls = ["slack", "pagerduty"] := by
  obtain ⟨heq, _hded, hfresh⟩ := c10_unknown_status_firing envTwoNotifiers
    "id1" 7 [] weirdInput (by decide)
  obtain ⟨r, hr, hnew, hcalls⟩ := hfresh rfl rfl rfl rfl
  exact ⟨heq, r, hr, hnew, hcalls.trans rfl⟩

/-- Two iteration sequences of the same subscriber-result map (a permutation
with pairwise distinct keys) on which the representative-handle extraction
disagrees. -/
def pdEntriesA : List (String × String) := [("alice", "k1"), ("bob", "k2")]

/-- The same result map as pdEntriesA in the other iteration order. -/
def pdEntriesB : List (String × String) := [("bob", "k2"), ("alice", "k1")]

/-- C9 counterexample: the extraction loop of sendPagerDutyNotification ranges
over a Go map, so it sees some iteration sequence of the entries; two
sequences of the same result map (a key-distinct permutation) yield different
representative handles, refuting both determinism in the map and the claimed
priority-order choice. -/
theorem c9_counterexample :
    pdEntriesA.Perm pdEntriesB ∧
    (pdEntriesA.map Prod.fst).Nodup ∧
    pagerDutyRepresentativeHandle pdEntriesA (.error "no pd") ≠
      pagerDutyRepresentativeHandle pdEntriesB (.error "no pd") := by
  refine ⟨List.Perm.swap _ _ _, by decide, ?_⟩
  intro hcon
  have hcon' : (Except.ok "k1" : Except String String) = Except.ok "k2" := hcon
  exact absurd (Except.ok.inj hcon') (by decide)

/-- Folding the extraction step over any entries from a non-empty accumulator
keeps the accumulator. -/
theorem firstDedupKey_foldl_ne (l : List (String × String)) (acc : String)
    (h : (acc == "") = false) :
    l.foldl (fun acc p => if isErrorResult p.2 then acc
      else if acc == "" then p.2 else acc) acc = acc := by
  induction l with
  | nil => rfl
  | cons p rest ih =>
      simp only [List.foldl_cons]
      have hstep : (if isErrorResult p.2 then acc
          else if acc == "" then p.2 else acc) = acc := by
        cases hE : isErrorResult p.2 <;> simp [h]
      rw [hstep]
      exact ih

/-- The extracted dedup key is the value of the first entry in iteration
order that is neither an error result nor empty. -/
theorem firstDedupKey_spec (entries : List (String × String)) :
    firstDedupKey entries =
      match entries.find? (fun p => !isErrorResult p.2 && p.2 != "") with
      | some p => p.2
      | none => "" := by
  induction entries with
  | nil => rfl
  | cons p rest ih =>
      unfold firstDedupKey at ih ⊢
      simp only [List.foldl_cons]
      by_cases hE : isErrorResult p.2 = true
      · rw [if_pos hE]
        rw [List.find?_cons_of_neg _ (by simp [hE])]
        exact ih
      · rw [Bool.not_eq_true] at hE
        rw [if_neg (by simp [hE]), if_pos (show ("" == "") = true from rfl)]
        by_cases hv : (p.2 == "") = true
        · have hv' : p.2 = "" := by simpa using hv
          rw [hv']
          rw [List.find?_cons_of_neg _ (by simp [hE, hv'])]
          exact ih
        · rw [Bool.not_eq_true] at hv
          rw [firstDedupKey_foldl_ne rest p.2 hv]
          have hne : ¬p.2 = "" := by
            intro hcc
            rw [hcc] at hv
            exact absurd hv (by decide)
          rw [List.find?_cons_of_pos _ (by simp [hE, hne])]

/-- C9 amended: the representative handle surfaced by the subscriber path of
sendPagerDutyNotification is the first non-error, non-empty token in the
iteration sequence of the result map (falling back to the generic notifier
when none exists); it is a function of the iteration sequence, which for a Go
map is unspecified, not of the map alone and not of the delivery priority
order. -/
theorem c9_handle_first_success_in_iteration_order
    (entries : List (String × String)) (fallback : Except String String) :
    pagerDutyRepresentativeHandle entries fallback =
      match entries.find? (fun p => !isErrorResult p.2 && p.2 != "") with
      | some p => .ok p.2
      | none => fallback := by
  unfold pagerDutyRepresentativeHandle
  rw [firstDedupKey_spec]
  cases hf : entries.find? (fun p => !isErrorResult p.2 && p.2 != "") with
  | none => rfl
  | some p =>
      have hp := List.find?_some hf
      have hv : (p.2 != "") = true := by
        cases hq : (p.2 != "") with
        | true => rfl
        | false => rw [hq, Bool.and_false] at hp; cases hp
      dsimp only
      rw [if_pos hv]

end AlertBridge
